import Mathlib

/-!
Verification of the argo-rollouts progressive-delivery controller spec
against the repository's code.

Part 1 embeds `utils/record/record.go`: the event-recorder adapter
(`Eventf`, `Warnf`, `eventf`), the notification sender
(`sendNotifications`), and the built-in trigger maps
(`BuiltInTriggers`, `reverseMap`, `EventReasonToTrigger`).

Part 2 models the rollout reconciliation engine (StrategyEngine,
ReplicaSetManager, TrafficWeightController, Reconciler).  That code is
not part of the sources at hand (only manifests referencing it are), so
it is modelled from the spec, following its words faithfully; each such
definition is marked `Modelled from the spec:`.
-/

namespace Record

/-- Log level of a log line emitted through the logrus context
(`logCtx.Infof` / `logCtx.Warnf` / `log.Errorf`). -/
inductive LogLevel
  | info
  | warn
  | error
deriving DecidableEq, Repr

/-- One log line: its level, its formatted message, and the
`event_reason` field attached to the log context (if any). -/
structure LogEntry where
  level : LogLevel
  message : String
  eventReason : Option String
deriving DecidableEq, Repr

/-- `EventOptions` from record.go: the kubernetes event type
(Normal or Warning, empty string = Go zero value meaning unset) and the
event reason (empty string = unset). -/
structure EventOptions where
  eventType : String
  eventReason : String
deriving DecidableEq, Repr

/-- `corev1.EventTypeNormal`. -/
def eventTypeNormal : String := "Normal"

/-- `corev1.EventTypeWarning`. -/
def eventTypeWarning : String := "Warning"

/-- The part of a `runtime.Object` the recorder reads: its kind,
namespace and name (via `logutil.KindNamespaceName`). -/
structure K8sObject where
  kind : String
  ns : String
  name : String
deriving DecidableEq, Repr

/-- The observable effects of one call to
`EventRecorderAdapter.eventf`: the Kubernetes event emitted through
`e.Recorder.Eventf` (if any), the `rollout_events_total` counter
increment with its label values (if any), and the log line written via
`logCtx.Infof` / `logCtx.Warnf`. -/
structure EventfResult where
  emittedEvent : Option (String × String × String)
  counterIncrement : Option (String × String × String × String)
  logEntry : LogEntry
deriving DecidableEq, Repr

/-- `EventRecorderAdapter.eventf` (record.go lines 106-125).
If `opts.EventReason` is non-empty, the recorder emits a Kubernetes
event `(eventType, reason, message)` and, when the object's kind is
`"Rollout"`, increments the counter with label values
`(namespace, name, eventType, eventReason)`.  It always writes one log
line, at Warn level iff `warn` is set, carrying the `event_reason`
field when the reason is non-empty. -/
def eventf (object : K8sObject) (warn : Bool) (opts : EventOptions)
    (message : String) : EventfResult :=
  let emitted :=
    if opts.eventReason = "" then none
    else some (opts.eventType, opts.eventReason, message)
  let counter :=
    if opts.eventReason = "" then none
    else if object.kind = "Rollout" then
      some (object.ns, object.name, opts.eventType, opts.eventReason)
    else none
  let lvl := if warn then LogLevel.warn else LogLevel.info
  let reasonField :=
    if opts.eventReason = "" then none else some opts.eventReason
  { emittedEvent := emitted
    counterIncrement := counter
    logEntry := { level := lvl, message := message, eventReason := reasonField } }

/-- `EventRecorderAdapter.Eventf` (record.go lines 94-99): defaults an
empty event type to Normal, then delegates to `eventf` with
`warn := (eventType == Warning)`. -/
def Eventf (object : K8sObject) (opts : EventOptions) (message : String) :
    EventfResult :=
  let opts1 :=
    if opts.eventType = "" then { opts with eventType := eventTypeNormal }
    else opts
  eventf object (opts1.eventType = eventTypeWarning) opts1 message

/-- `EventRecorderAdapter.Warnf` (record.go lines 101-104): forces the
event type to Warning and delegates to `eventf` with `warn := true`. -/
def Warnf (object : K8sObject) (opts : EventOptions) (message : String) :
    EventfResult :=
  let opts1 := { opts with eventType := eventTypeWarning }
  eventf object true opts1 message

/-- `conditions.RolloutCompletedReason` (from utils/conditions). -/
def RolloutCompletedReason : String := "RolloutCompleted"

/-- `conditions.RolloutStepCompletedReason` (from utils/conditions). -/
def RolloutStepCompletedReason : String := "RolloutStepCompleted"

/-- `conditions.ScalingReplicaSetReason` (from utils/conditions). -/
def ScalingReplicaSetReason : String := "ScalingReplicaSet"

/-- `conditions.RolloutUpdatedReason` (from utils/conditions). -/
def RolloutUpdatedReason : String := "RolloutUpdated"

/-- `BuiltInTriggers` (record.go lines 132-137), as an association list
from trigger name to event reason.  The Go map has distinct keys and
distinct values, so association-list lookup agrees with Go map
indexing. -/
def BuiltInTriggers : List (String × String) :=
  [("on-completed", RolloutCompletedReason),
   ("on-step-completed", RolloutStepCompletedReason),
   ("on-scaling-replicaset", ScalingReplicaSetReason),
   ("on-update", RolloutUpdatedReason)]

/-- `reverseMap` (record.go lines 204-210): swaps every key/value pair.
On a map with distinct values (as here) the Go iteration order and
last-write-wins overwrite do not matter, so the list of swapped pairs
is a faithful model. -/
def reverseMap (m : List (String × String)) : List (String × String) :=
  m.map (fun p => (p.2, p.1))

/-- `EventReasonToTrigger = reverseMap(BuiltInTriggers)`
(record.go line 138). -/
def EventReasonToTrigger : List (String × String) :=
  reverseMap BuiltInTriggers

/-- The environment `sendNotifications` runs against: the
destinations-by-trigger map derived from the object's subscription
annotations, the result of `apiFactory.GetAPI()` carrying the triggers
config, whether JSON marshalling of the object succeeds, and the result
of `notificationsAPI.Send` per destination. -/
structure NotifEnv where
  destByTrigger : List (String × List String)
  apiResult : Except String (List (String × List String))
  marshalOk : Bool
  sendResult : String → Except String Unit

/-- The `for _, dest := range destinations` loop at the end of
`sendNotifications` (record.go lines 190-196): sends to each
destination in order; on the first failing send it logs
`notification error: ...` at error level and returns the error. -/
def sendLoop (send : String → Except String Unit) :
    List String → List LogEntry × Except String Unit
  | [] => ([], Except.ok ())
  | d :: rest =>
    match send d with
    | Except.error e =>
      ([{ level := LogLevel.error,
          message := "notification error: " ++ e,
          eventReason := none }], Except.error e)
    | Except.ok () => sendLoop send rest

/-- `EventRecorderAdapter.sendNotifications` (record.go lines 154-198):
resolves the trigger from the event reason; returns ok when there is no
trigger or no destination; then fails fast on `GetAPI` or marshalling
errors (without logging); otherwise runs the send loop.  Returns the
log lines it writes together with its error result. -/
def sendNotifications (env : NotifEnv) (opts : EventOptions) :
    List LogEntry × Except String Unit :=
  match EventReasonToTrigger.lookup opts.eventReason with
  | none => ([], Except.ok ())
  | some trigger =>
    let destinations := (env.destByTrigger.lookup trigger).getD []
    if destinations.isEmpty then ([], Except.ok ())
    else
      match env.apiResult with
      | Except.error e => ([], Except.error e)
      | Except.ok _ =>
        if env.marshalOk then sendLoop env.sendResult destinations
        else ([], Except.error "marshal error")

/-- The full delivery of one event: the recording path (`eventf`,
which emits the Kubernetes event, bumps the counter and logs) and the
notification path (`sendNotifications`).  In record.go these are
separate code paths on the adapter: `eventf` never invokes
`sendNotifications` and takes no input from it. -/
def recordAndNotify (env : NotifEnv) (object : K8sObject) (warn : Bool)
    (opts : EventOptions) (message : String) :
    EventfResult × (List LogEntry × Except String Unit) :=
  (eventf object warn opts message, sendNotifications env opts)

end Record

namespace Engine

/-- Modelled from the spec: a `Step` of a canary strategy is a tagged
variant - SetWeight(percentage), Pause(optional duration; absent =
indefinite/manual), AnalysisStep(template reference).  (The Experiment
variant plays no role in any claim and is omitted.) -/
inductive StepKind
  | setWeight (w : Nat)
  | pause (duration : Option Nat)
  | analysis (template : String)
deriving DecidableEq, Repr

/-- Modelled from the spec: the phase of an `AnalysisRun`:
{Pending, Running, Successful, Failed, Error, Inconclusive}. -/
inductive AnalysisPhase
  | pending
  | running
  | successful
  | failed
  | error
  | inconclusive
deriving DecidableEq, Repr

/-- Modelled from the spec: the strategy kind of a rollout spec -
canary, blueGreen, or an unknown kind (a ValidationError). -/
inductive StrategyKind
  | canary
  | blueGreen
  | unknown (name : String)
deriving DecidableEq, Repr

/-- Modelled from the spec: the declarative part of a `Rollout` -
desired replica count, ordered step list, pod-template hash and
strategy kind. -/
structure RolloutSpec where
  replicas : Nat
  steps : List StepKind
  podHash : Nat
  strategy : StrategyKind
deriving DecidableEq, Repr

/-- Modelled from the spec: `status.phase` of a rollout:
{Progressing, Paused, Degraded, Healthy}. -/
inductive RolloutPhase
  | progressing
  | paused
  | degraded
  | healthy
deriving DecidableEq, Repr

/-- Modelled from the spec: the observed status of a `Rollout` -
current step index, current (recorded) traffic weight, the
pod-template hash the current rollout targets, the stable revision
hash, the pause condition (start timestamp, if paused), the abort
flag, and the phase.  The spec's "clear step index" on full promotion
is modelled as the index standing one past the end of the step list,
since the status schema keeps `currentStepIndex` and the spec requires
it never to decrease except on reset. -/
structure RolloutStatus where
  currentStepIndex : Nat
  currentWeight : Nat
  currentPodHash : Nat
  stableHash : Nat
  pauseStart : Option Nat
  abort : Bool
  phase : RolloutPhase
deriving DecidableEq, Repr

/-- Modelled from the spec: the cluster-state side of the reconcile
triple.  `requested*` fields are the targets the controller last issued
to the replica-set and traffic-routing capabilities (re-issuing the
same target is a no-op); `observed*` fields are what the cluster and
the routing backend currently report, mutated only by the environment
between reconcile calls.  `startedRuns` records the step indexes for
which an analysis run has been started; `analysisPhase` is the
backend's verdict per step index; `resumeSignal` is the external
manual-resume signal; `promoteSignal` the blue-green promote signal;
`now` the current wall-clock time. -/
structure ClusterState where
  requestedWeight : Nat
  requestedStable : Nat
  requestedCanary : Nat
  observedWeight : Nat
  observedStable : Nat
  observedCanary : Nat
  startedRuns : List Nat
  analysisPhase : Nat → AnalysisPhase
  resumeSignal : Bool
  promoteSignal : Bool
  now : Nat

/-- The status/cluster pair a reconcile call reads and writes. -/
structure RState where
  status : RolloutStatus
  cluster : ClusterState

/-- Modelled from the spec: the error taxonomy entry relevant here -
ValidationError (malformed spec, rejected before reconciliation). -/
inductive RolloutError
  | validationError (name : String)
deriving DecidableEq, Repr

/-- The result of one reconcile call: the new status/cluster pair,
whether to requeue, and the error (if any). -/
structure ReconcileOutcome where
  state : RState
  requeue : Bool
  error : Option RolloutError

/-- Modelled from the spec: `reconcileReplicaCounts` of the
ReplicaSetManager.  Pure function:
`canaryCount = ceil(totalReplicas * desiredWeight / 100)`,
`stableCount = totalReplicas - canaryCount`.  Returns
`(stableCount, canaryCount)`. -/
def reconcileReplicaCounts (totalReplicas desiredWeight : Nat) : Nat × Nat :=
  let canaryCount := (totalReplicas * desiredWeight + 99) / 100
  (totalReplicas - canaryCount, canaryCount)

/-- Modelled from the spec: `converge` of the TrafficWeightController
combined with the ReplicaSetManager confirmation: a SetWeight step has
converged once the routing backend reports the desired weight applied
and the observed replica counts match the weight. -/
def converged (spec : RolloutSpec) (cl : ClusterState) (w : Nat) : Bool :=
  cl.observedWeight = w ∧
  cl.observedStable = (reconcileReplicaCounts spec.replicas w).1 ∧
  cl.observedCanary = (reconcileReplicaCounts spec.replicas w).2

/-- Modelled from the spec: the abort branch - set weight back to 0%,
scale canary to zero, leave stable untouched, mark status Degraded,
reset the step index (abort-driven rollback).  The recorded status
weight moves to 0 only once the backend reports 0 applied. -/
def applyAbort (s : RState) : RState :=
  { status := { s.status with
      abort := true
      currentStepIndex := 0
      currentWeight :=
        if s.cluster.observedWeight = 0 then 0 else s.status.currentWeight
      pauseStart := none
      phase := RolloutPhase.degraded }
    cluster := { s.cluster with
      requestedWeight := 0
      requestedCanary := 0 } }

/-- Modelled from the spec: reaching the end of the step list - set
weight to 100%, promote the canary replica set to stable, scale the
old stable down (the promoted stable serves all replicas), transition
to Healthy.  The recorded status weight moves to 100 only once the
backend reports 100 applied. -/
def applyFinish (spec : RolloutSpec) (s : RState) : RState :=
  { status := { s.status with
      stableHash := spec.podHash
      currentWeight :=
        if s.cluster.observedWeight = 100 then 100 else s.status.currentWeight
      pauseStart := none
      phase := RolloutPhase.healthy }
    cluster := { s.cluster with
      requestedWeight := 100
      requestedStable := spec.replicas
      requestedCanary := 0 } }

/-- Modelled from the spec: new-template detection - a changed
pod-template hash initializes a new canary at step 0, clears pause
state and the abort flag, and terminates analysis runs started for
steps of the superseded revision. -/
def resetForTemplate (spec : RolloutSpec) (s : RState) : RState :=
  { status := { s.status with
      currentStepIndex := 0
      currentPodHash := spec.podHash
      pauseStart := none
      abort := false
      phase := RolloutPhase.progressing }
    cluster := { s.cluster with startedRuns := [] } }

/-- The result of evaluating the step at the current index: either the
step is still in progress (`stay`, requeue) or its goal is met and the
index may advance (`advance`). -/
inductive EvalResult
  | stay (s : RState)
  | advance (s : RState)

/-- Modelled from the spec: re-evaluation of the step at
`currentStepIndex` (one transition of the canary state machine).
SetWeight(w) requests the traffic and replica-count targets for `w`
and advances once converged, recording the applied weight; Pause(d)
records a PauseCondition if none is recorded and clears it and
advances once `d` has elapsed since the recorded start (or, for an
indefinite pause, once the external resume signal is observed);
AnalysisStep starts a run for this step if none is referenced and
polls its phase - Successful advances, Failed/Error takes the abort
branch, anything else stays. -/
def evalStep (spec : RolloutSpec) (s : RState) (step : StepKind) : EvalResult :=
  match step with
  | StepKind.setWeight w =>
    let counts := reconcileReplicaCounts spec.replicas w
    let cl := { s.cluster with
      requestedWeight := w
      requestedStable := counts.1
      requestedCanary := counts.2 }
    if converged spec cl w then
      EvalResult.advance
        { status := { s.status with
            currentWeight := w
            phase := RolloutPhase.progressing }
          cluster := cl }
    else
      EvalResult.stay
        { status := { s.status with phase := RolloutPhase.progressing }
          cluster := cl }
  | StepKind.pause d =>
    let start := s.status.pauseStart.getD s.cluster.now
    let elapsed : Bool :=
      match d with
      | some dur => start + dur ≤ s.cluster.now
      | none => s.cluster.resumeSignal
    if elapsed then
      EvalResult.advance
        { s with status := { s.status with
            pauseStart := none
            phase := RolloutPhase.progressing } }
    else
      EvalResult.stay
        { s with status := { s.status with
            pauseStart := some start
            phase := RolloutPhase.paused } }
  | StepKind.analysis _ =>
    let idx := s.status.currentStepIndex
    let cl :=
      if idx ∈ s.cluster.startedRuns then s.cluster
      else { s.cluster with startedRuns := idx :: s.cluster.startedRuns }
    match s.cluster.analysisPhase idx with
    | AnalysisPhase.successful =>
      EvalResult.advance
        { status := { s.status with phase := RolloutPhase.progressing }
          cluster := cl }
    | AnalysisPhase.failed =>
      EvalResult.stay (applyAbort { s with cluster := cl })
    | AnalysisPhase.error =>
      EvalResult.stay (applyAbort { s with cluster := cl })
    | _ =>
      EvalResult.stay
        { status := { s.status with phase := RolloutPhase.progressing }
          cluster := cl }

/-- Modelled from the spec: the step-execution loop of the canary
state machine.  Past the end of the step list the rollout is fully
promoted; otherwise the current step is evaluated and, when its goal
is met, the index advances and the next step is evaluated in the same
call (so a reconcile call does all the work the observed state
allows, and a repeated call finds nothing left to do).  `fuel` bounds
the recursion; callers pass `spec.steps.length + 1`, which is never
exhausted. -/
def runSteps (spec : RolloutSpec) : Nat → RState → ReconcileOutcome
  | fuel, s =>
    if h : spec.steps.length ≤ s.status.currentStepIndex then
      { state := applyFinish spec s, requeue := false, error := none }
    else
      match fuel with
      | 0 => { state := s, requeue := true, error := none }
      | fuel' + 1 =>
        match evalStep spec s
            (spec.steps.get ⟨s.status.currentStepIndex, by omega⟩) with
        | EvalResult.stay s1 =>
          { state := s1, requeue := true, error := none }
        | EvalResult.advance s1 =>
          runSteps spec fuel'
            { s1 with status := { s1.status with
                currentStepIndex := s1.status.currentStepIndex + 1 } }

/-- Modelled from the spec: the blue-green preview stage - the new
revision is staged fully scaled while receiving 0% of production
traffic, awaiting the promote signal. -/
def previewState (spec : RolloutSpec) (s : RState) : RState :=
  { status := { s.status with phase := RolloutPhase.progressing }
    cluster := { s.cluster with
      requestedWeight := 0
      requestedStable := spec.replicas
      requestedCanary := spec.replicas } }

/-- Modelled from the spec: the blue-green state machine.  Traffic is
all-or-nothing: until a promote signal fires the preview replica set
is staged at 0% production traffic; on promotion traffic fully cuts
over (single transition to 100) and the new revision becomes stable. -/
def reconcileBlueGreen (spec : RolloutSpec) (s : RState) : ReconcileOutcome :=
  let s0 :=
    if spec.podHash = s.status.currentPodHash then s
    else resetForTemplate spec s
  if s0.status.abort then
    { state := applyAbort s0, requeue := false, error := none }
  else if s0.status.stableHash = spec.podHash then
    { state := applyFinish spec s0, requeue := false, error := none }
  else if s0.cluster.promoteSignal then
    { state := applyFinish spec s0, requeue := false, error := none }
  else
    { state := previewState spec s0, requeue := true, error := none }

/-- Modelled from the spec: the canary branch of one Reconciler call.
A changed pod-template hash resets the step sequence to 0; an aborted
rollout holds the abort branch; otherwise the step loop runs. -/
def reconcileCanary (spec : RolloutSpec) (s : RState) : ReconcileOutcome :=
  let s0 :=
    if spec.podHash = s.status.currentPodHash then s
    else resetForTemplate spec s
  if s0.status.abort then
    { state := applyAbort s0, requeue := false, error := none }
  else
    runSteps spec (spec.steps.length + 1) s0

/-- Modelled from the spec: one call of the Reconciler.  An unknown
strategy kind is rejected with a ValidationError before any status
mutation and never reaches the StrategyEngine; a known strategy runs
its state machine. -/
def reconcile (spec : RolloutSpec) (s : RState) : ReconcileOutcome :=
  match spec.strategy with
  | StrategyKind.unknown name =>
    { state := s, requeue := false,
      error := some (RolloutError.validationError name) }
  | StrategyKind.blueGreen => reconcileBlueGreen spec s
  | StrategyKind.canary => reconcileCanary spec s

/-- The state carried by either evaluation result. -/
def EvalResult.state : EvalResult → RState
  | EvalResult.stay s => s
  | EvalResult.advance s => s

/-- A quiescent cluster state used to instantiate theorems. -/
def sampleCluster : ClusterState :=
  { requestedWeight := 0, requestedStable := 0, requestedCanary := 0
    observedWeight := 0, observedStable := 0, observedCanary := 0
    startedRuns := [], analysisPhase := fun _ => AnalysisPhase.pending
    resumeSignal := false, promoteSignal := false, now := 0 }

/-- A fresh rollout status used to instantiate theorems. -/
def sampleStatus : RolloutStatus :=
  { currentStepIndex := 0, currentWeight := 0, currentPodHash := 0
    stableHash := 0, pauseStart := none, abort := false
    phase := RolloutPhase.progressing }

/-- A fresh status/cluster pair used to instantiate theorems. -/
def sampleState : RState :=
  { status := sampleStatus, cluster := sampleCluster }

end Engine

namespace Record

/-- Claim C1: a failure of notification delivery is non-fatal.  The
event-recording path is independent of the notification environment
(so it completes its Kubernetes event emission, counter increment and
log output whatever any notification send does), and when a send fails
the send loop logs the error at error level. -/
theorem notification_failure_nonfatal (env env2 : NotifEnv)
    (object : K8sObject) (warn : Bool) (opts : EventOptions)
    (message : String) (send : String → Except String Unit)
    (dests : List String) (e : String)
    (h : (sendLoop send dests).2 = Except.error e) :
    (recordAndNotify env object warn opts message).1 =
      (recordAndNotify env2 object warn opts message).1 ∧
    (recordAndNotify env object warn opts message).1 =
      eventf object warn opts message ∧
    (sendLoop send dests).1 =
      [{ level := LogLevel.error,
         message := "notification error: " ++ e,
         eventReason := none }] := by
  refine ⟨rfl, rfl, ?_⟩
  induction dests with
  | nil => simp [sendLoop] at h
  | cons d rest ih =>
    simp only [sendLoop] at h ⊢
    cases hsend : send d with
    | error e2 =>
      rw [hsend] at h
      simp at h
      subst h
      rfl
    | ok u =>
      cases u
      rw [hsend] at h
      exact ih h

/-- Claim C1 witness: with a send backend that fails on the single
destination, the send loop logs the error and the recording path is
unaffected. -/
theorem notification_failure_nonfatal_witness :
    (sendLoop (fun _ => Except.error "boom") ["slack"]).2 =
      Except.error "boom" ∧
    (sendLoop (fun _ => Except.error "boom") ["slack"]).1 =
      [{ level := LogLevel.error,
         message := "notification error: " ++ "boom",
         eventReason := none }] :=
  ⟨rfl,
   (notification_failure_nonfatal
      { destByTrigger := [], apiResult := Except.ok [], marshalOk := true,
        sendResult := fun _ => Except.ok () }
      { destByTrigger := [], apiResult := Except.ok [], marshalOk := true,
        sendResult := fun _ => Except.ok () }
      { kind := "Rollout", ns := "default", name := "r" } false
      { eventType := "", eventReason := "" } "msg"
      (fun _ => Except.error "boom") ["slack"] "boom" rfl).2.2⟩

/-- Claim C8: `Eventf` with an empty `opts.EventType` records the event
with type Normal and logs at Info level; `Warnf` forces the event type
to Warning and logs at Warn level regardless of the passed type. -/
theorem eventf_type_defaulting (object : K8sObject) (opts : EventOptions)
    (message : String) (h : opts.eventType = "") :
    (Eventf object opts message).logEntry.level = LogLevel.info ∧
    (∀ t r m, (Eventf object opts message).emittedEvent = some (t, r, m) →
      t = eventTypeNormal) ∧
    (∀ opts2 : EventOptions,
      (Warnf object opts2 message).logEntry.level = LogLevel.warn ∧
      ∀ t r m, (Warnf object opts2 message).emittedEvent = some (t, r, m) →
        t = eventTypeWarning) := by
  refine ⟨?_, ?_, ?_⟩
  · simp [Eventf, eventf, h, eventTypeNormal, eventTypeWarning]
  · intro t r m hev
    simp only [Eventf, h, if_pos] at hev
    simp only [eventf] at hev
    by_cases hr : opts.eventReason = "" <;> simp [hr] at hev
    exact hev.1.symm
  · intro opts2
    constructor
    · simp [Warnf, eventf]
    · intro t r m hev
      simp only [Warnf, eventf] at hev
      by_cases hr : opts2.eventReason = "" <;> simp [hr] at hev
      exact hev.1.symm

/-- Claim C8 witness: a concrete `Eventf` call with empty event type
logs at Info, and the corresponding `Warnf` call logs at Warn. -/
theorem eventf_type_defaulting_witness :
    ({ eventType := "", eventReason := "FooBar" } : EventOptions).eventType
      = "" ∧
    (Eventf { kind := "Rollout", ns := "default", name := "r" }
      { eventType := "", eventReason := "FooBar" } "hello").logEntry.level
      = LogLevel.info :=
  ⟨rfl,
   (eventf_type_defaulting
      { kind := "Rollout", ns := "default", name := "r" }
      { eventType := "", eventReason := "FooBar" } "hello" rfl).1⟩

/-- Claim C9: `eventf` with an empty `opts.EventReason` emits no
Kubernetes event and increments no counter - its only effect is the
log line; and the counter is incremented only for objects of kind
`"Rollout"`. -/
theorem eventf_empty_reason_frame (object : K8sObject) (warn : Bool)
    (opts : EventOptions) (message : String)
    (h : opts.eventReason = "") :
    (eventf object warn opts message).emittedEvent = none ∧
    (eventf object warn opts message).counterIncrement = none ∧
    (eventf object warn opts message).logEntry.message = message ∧
    (∀ (warn2 : Bool) (opts2 : EventOptions),
      ((eventf object warn2 opts2 message).counterIncrement).isSome →
        object.kind = "Rollout") := by
  refine ⟨by simp [eventf, h], by simp [eventf, h], by simp [eventf], ?_⟩
  intro warn2 opts2 hsome
  simp only [eventf] at hsome
  by_cases hr : opts2.eventReason = ""
  · simp [hr] at hsome
  · by_cases hk : object.kind = "Rollout"
    · exact hk
    · simp [hr, hk] at hsome

/-- Claim C9 witness: a concrete `eventf` call with empty reason emits
nothing and increments nothing. -/
theorem eventf_empty_reason_frame_witness :
    ({ eventType := "Normal", eventReason := "" } : EventOptions).eventReason
      = "" ∧
    (eventf { kind := "Rollout", ns := "default", name := "r" } false
      { eventType := "Normal", eventReason := "" } "hello").emittedEvent
      = none :=
  ⟨rfl,
   (eventf_empty_reason_frame
      { kind := "Rollout", ns := "default", name := "r" } false
      { eventType := "Normal", eventReason := "" } "hello" rfl).1⟩

/-- Claim C10: `EventReasonToTrigger` is the exact inverse of
`BuiltInTriggers`: looking up the reason of any built-in trigger pair
yields that trigger back, and every key of `EventReasonToTrigger` is a
value of `BuiltInTriggers`. -/
theorem reverseMap_inverts_builtin :
    (∀ p ∈ BuiltInTriggers, EventReasonToTrigger.lookup p.2 = some p.1) ∧
    (∀ q ∈ EventReasonToTrigger, q.1 ∈ BuiltInTriggers.map Prod.snd) ∧
    (∀ p ∈ BuiltInTriggers, BuiltInTriggers.lookup p.1 = some p.2) := by
  decide

/-- Claim C10 witness: the round trip on the `on-completed` trigger. -/
theorem reverseMap_inverts_builtin_witness :
    ("on-completed", RolloutCompletedReason) ∈ BuiltInTriggers ∧
    EventReasonToTrigger.lookup RolloutCompletedReason =
      some "on-completed" :=
  ⟨by decide,
   reverseMap_inverts_builtin.1 ("on-completed", RolloutCompletedReason)
     (by decide)⟩

end Record

namespace Engine

/-- The canary count never exceeds the total when the weight is a
percentage. -/
lemma canary_le_total (total w : Nat) (h : w ≤ 100) :
    (reconcileReplicaCounts total w).2 ≤ total := by
  show (total * w + 99) / 100 ≤ total
  have h1 : total * w + 99 ≤ total * 100 + 99 :=
    Nat.add_le_add_right (Nat.mul_le_mul_left total h) 99
  calc (total * w + 99) / 100 ≤ (total * 100 + 99) / 100 :=
        Nat.div_le_div_right h1
    _ = total := by
        rw [Nat.mul_comm total 100, Nat.mul_add_div (by norm_num)]
        norm_num

/-- Stable plus canary counts reconstitute the total for percentage
weights. -/
lemma counts_sum (total w : Nat) (h : w ≤ 100) :
    (reconcileReplicaCounts total w).1 + (reconcileReplicaCounts total w).2
      = total :=
  Nat.sub_add_cancel (canary_le_total total w h)

/-- Applying the abort branch twice equals applying it once. -/
lemma applyAbort_idem (s : RState) : applyAbort (applyAbort s) = applyAbort s := by
  by_cases h : s.cluster.observedWeight = 0 <;> simp [applyAbort, h]

/-- Applying the promotion branch twice equals applying it once. -/
lemma applyFinish_idem (spec : RolloutSpec) (s : RState) :
    applyFinish spec (applyFinish spec s) = applyFinish spec s := by
  by_cases h : s.cluster.observedWeight = 100 <;> simp [applyFinish, h]

/-- Inversion facts for an `advance` result of `evalStep`: the
environment-owned fields, the step index, the abort flag and the pod
hash are preserved; the recorded weight is either untouched or set to
the weight the backend reports applied; and an analysis step advances
only on a Successful verdict. -/
lemma evalStep_advance_inv (spec : RolloutSpec) (s s1 : RState)
    (step : StepKind)
    (h : evalStep spec s step = EvalResult.advance s1) :
    s1.cluster.analysisPhase = s.cluster.analysisPhase ∧
    s1.cluster.observedWeight = s.cluster.observedWeight ∧
    s1.status.currentPodHash = s.status.currentPodHash ∧
    s1.status.currentStepIndex = s.status.currentStepIndex ∧
    s1.status.abort = s.status.abort ∧
    (s1.status.currentWeight = s.status.currentWeight ∨
      s1.status.currentWeight = s.cluster.observedWeight) ∧
    (∀ t, step = StepKind.analysis t →
      s.cluster.analysisPhase s.status.currentStepIndex
        = AnalysisPhase.successful) := by
  cases step with
  | setWeight w =>
    simp only [evalStep] at h
    split at h
    · rename_i hc
      injection h with h1
      subst h1
      refine ⟨rfl, rfl, rfl, rfl, rfl, Or.inr ?_, fun t ht => StepKind.noConfusion ht⟩
      rw [converged] at hc
      simp only [decide_eq_true_eq] at hc
      exact hc.1.symm
    · exact EvalResult.noConfusion h
  | pause d =>
    simp only [evalStep] at h
    split at h
    · injection h with h1
      subst h1
      exact ⟨rfl, rfl, rfl, rfl, rfl, Or.inl rfl, fun t ht => StepKind.noConfusion ht⟩
    · exact EvalResult.noConfusion h
  | analysis tmpl =>
    simp only [evalStep] at h
    by_cases hmem : s.status.currentStepIndex ∈ s.cluster.startedRuns
    · simp only [if_pos hmem] at h
      split at h
      · rename_i hphase
        injection h with h1
        subst h1
        exact ⟨rfl, rfl, rfl, rfl, rfl, Or.inl rfl, fun t ht => hphase⟩
      · exact EvalResult.noConfusion h
      · exact EvalResult.noConfusion h
      · exact EvalResult.noConfusion h
    · simp only [if_neg hmem] at h
      split at h
      · rename_i hphase
        injection h with h1
        subst h1
        exact ⟨rfl, rfl, rfl, rfl, rfl, Or.inl rfl, fun t ht => hphase⟩
      · exact EvalResult.noConfusion h
      · exact EvalResult.noConfusion h
      · exact EvalResult.noConfusion h

/-- Inversion facts for a `stay` result of `evalStep`: the
environment-owned fields and the pod hash are preserved; the recorded
weight is untouched or equals the applied weight; and either index and
abort flag are untouched, or the abort branch was taken (and is a
fixpoint of `applyAbort`). -/
lemma evalStep_stay_inv (spec : RolloutSpec) (s s1 : RState)
    (step : StepKind)
    (h : evalStep spec s step = EvalResult.stay s1) :
    s1.cluster.analysisPhase = s.cluster.analysisPhase ∧
    s1.cluster.observedWeight = s.cluster.observedWeight ∧
    s1.status.currentPodHash = s.status.currentPodHash ∧
    (s1.status.currentWeight = s.status.currentWeight ∨
      s1.status.currentWeight = s.cluster.observedWeight) ∧
    ((s1.status.currentStepIndex = s.status.currentStepIndex ∧
      s1.status.abort = s.status.abort) ∨
     (s1.status.abort = true ∧ applyAbort s1 = s1)) := by
  cases step with
  | setWeight w =>
    simp only [evalStep] at h
    split at h
    · exact EvalResult.noConfusion h
    · injection h with h1
      subst h1
      exact ⟨rfl, rfl, rfl, Or.inl rfl, Or.inl ⟨rfl, rfl⟩⟩
  | pause d =>
    simp only [evalStep] at h
    split at h
    · exact EvalResult.noConfusion h
    · injection h with h1
      subst h1
      exact ⟨rfl, rfl, rfl, Or.inl rfl, Or.inl ⟨rfl, rfl⟩⟩
  | analysis tmpl =>
    simp only [evalStep] at h
    by_cases hmem : s.status.currentStepIndex ∈ s.cluster.startedRuns
    · simp only [if_pos hmem] at h
      split at h
      · exact EvalResult.noConfusion h
      · injection h with h1
        subst h1
        refine ⟨rfl, rfl, rfl, ?_, Or.inr ⟨rfl, applyAbort_idem _⟩⟩
        by_cases hw : s.cluster.observedWeight = 0
        · simp [applyAbort, hw]
        · simp [applyAbort, hw]
      · injection h with h1
        subst h1
        refine ⟨rfl, rfl, rfl, ?_, Or.inr ⟨rfl, applyAbort_idem _⟩⟩
        by_cases hw : s.cluster.observedWeight = 0
        · simp [applyAbort, hw]
        · simp [applyAbort, hw]
      · injection h with h1
        subst h1
        exact ⟨rfl, rfl, rfl, Or.inl rfl, Or.inl ⟨rfl, rfl⟩⟩
    · simp only [if_neg hmem] at h
      split at h
      · exact EvalResult.noConfusion h
      · injection h with h1
        subst h1
        refine ⟨rfl, rfl, rfl, ?_, Or.inr ⟨rfl, applyAbort_idem _⟩⟩
        by_cases hw : s.cluster.observedWeight = 0
        · simp [applyAbort, hw]
        · simp [applyAbort, hw]
      · injection h with h1
        subst h1
        refine ⟨rfl, rfl, rfl, ?_, Or.inr ⟨rfl, applyAbort_idem _⟩⟩
        by_cases hw : s.cluster.observedWeight = 0
        · simp [applyAbort, hw]
        · simp [applyAbort, hw]
      · injection h with h1
        subst h1
        exact ⟨rfl, rfl, rfl, Or.inl rfl, Or.inl ⟨rfl, rfl⟩⟩

/-- A non-aborting `stay` state is a fixpoint of `evalStep`:
re-evaluating the unchanged observed state finds the same in-progress
step and re-issues the same (no-op) requests. -/
lemma evalStep_stay_fix (spec : RolloutSpec) (s s1 : RState)
    (step : StepKind)
    (h : evalStep spec s step = EvalResult.stay s1)
    (hab : s1.status.abort = false) :
    evalStep spec s1 step = EvalResult.stay s1 := by
  cases step with
  | setWeight w =>
    simp only [evalStep] at h
    split at h
    · exact EvalResult.noConfusion h
    · rename_i hc
      injection h with h1
      subst h1
      simp only [evalStep]
      split
      · rename_i hcond; exact absurd hcond hc
      · rfl
  | pause d =>
    simp only [evalStep] at h
    split at h
    · exact EvalResult.noConfusion h
    · rename_i hc
      injection h with h1
      subst h1
      simp only [evalStep]
      split
      · rename_i hcond; exact absurd hcond hc
      · rfl
  | analysis tmpl =>
    simp only [evalStep] at h
    by_cases hmem : s.status.currentStepIndex ∈ s.cluster.startedRuns
    · simp only [if_pos hmem] at h
      split at h
      · exact EvalResult.noConfusion h
      · injection h with h1; subst h1; simp [applyAbort] at hab
      · injection h with h1; subst h1; simp [applyAbort] at hab
      · rename_i h1 h2 h3
        injection h with h4
        subst h4
        simp only [evalStep]
        split <;>
          first
            | rfl
            | (rename_i hcond; exact absurd hcond h1)
            | (rename_i hcond; exact absurd hcond h2)
            | (rename_i hcond; exact absurd hcond h3)
            | (rename_i hcond; exact absurd hmem hcond)
            | (rename_i hcond; exact absurd (List.mem_cons_self _ _) hcond)
            | (split <;>
                first
                  | rfl
                  | (rename_i hcond; exact absurd hcond h1)
                  | (rename_i hcond; exact absurd hcond h2)
                  | (rename_i hcond; exact absurd hcond h3)
                  | (rename_i hcond; exact absurd hmem hcond)
                  | (rename_i hcond; exact absurd (List.mem_cons_self _ _) hcond))
    · simp only [if_neg hmem] at h
      split at h
      · exact EvalResult.noConfusion h
      · injection h with h1; subst h1; simp [applyAbort] at hab
      · injection h with h1; subst h1; simp [applyAbort] at hab
      · rename_i h1 h2 h3
        injection h with h4
        subst h4
        simp only [evalStep]
        split <;>
          first
            | rfl
            | (rename_i hcond; exact absurd hcond h1)
            | (rename_i hcond; exact absurd hcond h2)
            | (rename_i hcond; exact absurd hcond h3)
            | (rename_i hcond; exact absurd hmem hcond)
            | (rename_i hcond; exact absurd (List.mem_cons_self _ _) hcond)
            | (split <;>
                first
                  | rfl
                  | (rename_i hcond; exact absurd hcond h1)
                  | (rename_i hcond; exact absurd hcond h2)
                  | (rename_i hcond; exact absurd hcond h3)
                  | (rename_i hcond; exact absurd hmem hcond)
                  | (rename_i hcond; exact absurd (List.mem_cons_self _ _) hcond))

/-- The step loop never changes the pod hash the rollout targets, the
analysis verdicts, or the weight the backend reports applied. -/
lemma runSteps_preserves (spec : RolloutSpec) (fuel : Nat) :
    ∀ s : RState,
    (runSteps spec fuel s).state.status.currentPodHash
      = s.status.currentPodHash ∧
    (runSteps spec fuel s).state.cluster.analysisPhase
      = s.cluster.analysisPhase ∧
    (runSteps spec fuel s).state.cluster.observedWeight
      = s.cluster.observedWeight := by
  induction fuel with
  | zero =>
    intro s
    rw [runSteps]
    split
    · exact ⟨rfl, rfl, rfl⟩
    · exact ⟨rfl, rfl, rfl⟩
  | succ fuel ih =>
    intro s
    rw [runSteps]
    split
    · exact ⟨rfl, rfl, rfl⟩
    · split
      · rename_i heq; omega
      · rename_i fuel2 heq
        have hf : fuel2 = fuel := by omega
        subst hf
        split
        · rename_i hev
          have hinv := evalStep_stay_inv spec s _ _ hev
          exact ⟨hinv.2.2.1, hinv.1, hinv.2.1⟩
        · rename_i hev
          have hinv := evalStep_advance_inv spec s _ _ hev
          exact ⟨(ih _).1.trans hinv.2.2.1, (ih _).2.1.trans hinv.1,
                 (ih _).2.2.trans hinv.2.1⟩

/-- Monotonicity of the step loop: starting from a non-aborted state,
the step index never decreases unless the abort branch fires, and every
analysis step the loop advances past had a Successful verdict. -/
lemma runSteps_mono (spec : RolloutSpec) (fuel : Nat) :
    ∀ s : RState, s.status.abort = false →
    ((runSteps spec fuel s).state.status.abort = false →
      s.status.currentStepIndex
        ≤ (runSteps spec fuel s).state.status.currentStepIndex) ∧
    (∀ j, s.status.currentStepIndex ≤ j →
      j < (runSteps spec fuel s).state.status.currentStepIndex →
      ∀ t, spec.steps[j]? = some (StepKind.analysis t) →
      s.cluster.analysisPhase j = AnalysisPhase.successful) := by
  induction fuel with
  | zero =>
    intro s hab
    rw [runSteps]
    split
    · exact ⟨fun _ => le_refl _,
        fun j hj1 hj2 t ht => absurd hj2 (Nat.not_lt.mpr hj1)⟩
    · exact ⟨fun _ => le_refl _,
        fun j hj1 hj2 t ht => absurd hj2 (Nat.not_lt.mpr hj1)⟩
  | succ fuel ih =>
    intro s hab
    rw [runSteps]
    split
    · exact ⟨fun _ => le_refl _,
        fun j hj1 hj2 t ht => absurd hj2 (Nat.not_lt.mpr hj1)⟩
    · rename_i hlt
      split
      · rename_i heq; omega
      · rename_i fuel2 heq
        have hf : fuel2 = fuel := by omega
        subst hf
        split
        · rename_i s1 hev
          have hinv := evalStep_stay_inv spec s s1 _ hev
          rcases hinv.2.2.2.2 with ⟨hidx, habort⟩ | ⟨habort, hfix⟩
          · refine ⟨fun _ => ?_, fun j hj1 hj2 t ht => ?_⟩
            · rw [hidx]
            · rw [hidx] at hj2
              exact absurd hj2 (Nat.not_lt.mpr hj1)
          · refine ⟨fun hres => ?_, fun j hj1 hj2 t ht => ?_⟩
            · rw [habort] at hres
              exact Bool.noConfusion hres
            · have h1 : s1.status.currentStepIndex = 0 :=
                (congrArg (fun st => st.status.currentStepIndex) hfix).symm
              rw [h1] at hj2
              exact absurd hj2 (Nat.not_lt_zero j)
        · rename_i s1 hev
          have hinv := evalStep_advance_inv spec s s1 _ hev
          have hidx : s1.status.currentStepIndex = s.status.currentStepIndex :=
            hinv.2.2.2.1
          have hab1 : s1.status.abort = false := hinv.2.2.2.2.1.trans hab
          refine ⟨fun hres => ?_, fun j hj1 hj2 t ht => ?_⟩
          · have h1 := (ih { s1 with status := { s1.status with
              currentStepIndex := s1.status.currentStepIndex + 1 } } hab1).1 hres
            have h1' : s1.status.currentStepIndex + 1 ≤
                (runSteps spec _ { s1 with status := { s1.status with
                  currentStepIndex := s1.status.currentStepIndex + 1 } }
                ).state.status.currentStepIndex := h1
            omega
          · by_cases hje : j = s.status.currentStepIndex
            · rcases List.getElem?_eq_some_iff.mp ht with ⟨hjlt, hgett⟩
              have hjlt2 : s.status.currentStepIndex < spec.steps.length :=
                hje ▸ hjlt
              have hget1 : spec.steps.get
                  ⟨s.status.currentStepIndex, hjlt2⟩ = StepKind.analysis t := by
                subst hje
                rw [List.get_eq_getElem]
                exact hgett
              rw [hje]
              exact hinv.2.2.2.2.2.2 t hget1
            · have hj1' : s1.status.currentStepIndex + 1 ≤ j := by omega
              have h2 := (ih { s1 with status := { s1.status with
                  currentStepIndex := s1.status.currentStepIndex + 1 } }
                hab1).2 j hj1' hj2 t ht
              rw [← hinv.1]
              exact h2

/-- A state that is a fixpoint of its current step evaluation is a
fixpoint of the whole step loop, for any fuel. -/
lemma runSteps_stay_state (spec : RolloutSpec) (fuel2 : Nat) (s1 : RState)
    (hlt : s1.status.currentStepIndex < spec.steps.length)
    (hfixev : evalStep spec s1
        (spec.steps.get ⟨s1.status.currentStepIndex, hlt⟩)
      = EvalResult.stay s1) :
    (runSteps spec fuel2 s1).state = s1 := by
  rw [runSteps]
  split
  · rename_i hc; exact absurd hc (Nat.not_le.mpr hlt)
  · split
    · rfl
    · rename_i k heq
      split
      · rename_i s2 hev
        have h12 : EvalResult.stay s2 = EvalResult.stay s1 :=
          hev.symm.trans hfixev
        injection h12 with h13
        try exact h13
      · rename_i s2 hev
        have h12 : EvalResult.advance s2 = EvalResult.stay s1 :=
          hev.symm.trans hfixev
        exact EvalResult.noConfusion h12

/-- With enough fuel the step loop lands either in an abort state that
is a fixpoint of `applyAbort`, or in a non-aborted state that is a
fixpoint of the loop itself: a second run finds nothing to do. -/
lemma runSteps_fix (spec : RolloutSpec) (fuel : Nat) :
    ∀ s : RState, s.status.abort = false →
      spec.steps.length < fuel + s.status.currentStepIndex →
      (((runSteps spec fuel s).state.status.abort = true →
        applyAbort (runSteps spec fuel s).state = (runSteps spec fuel s).state) ∧
       ((runSteps spec fuel s).state.status.abort = false →
        ∀ fuel2, (runSteps spec fuel2 (runSteps spec fuel s).state).state
          = (runSteps spec fuel s).state)) := by
  induction fuel with
  | zero =>
    intro s hab hfuel
    rw [runSteps]
    split
    · rename_i hfin
      constructor
      · intro habt
        have h2 : s.status.abort = true := habt
        rw [hab] at h2; exact Bool.noConfusion h2
      · intro _ fuel2
        rw [runSteps]
        split
        · exact applyFinish_idem spec s
        · rename_i hc; exact absurd hfin hc
    · exfalso; omega
  | succ fuel ih =>
    intro s hab hfuel
    rw [runSteps]
    split
    · rename_i hfin
      constructor
      · intro habt
        have h2 : s.status.abort = true := habt
        rw [hab] at h2; exact Bool.noConfusion h2
      · intro _ fuel2
        rw [runSteps]
        split
        · exact applyFinish_idem spec s
        · rename_i hc; exact absurd hfin hc
    · rename_i hlt
      split
      · rename_i heq; omega
      · rename_i fuelx heq
        have hf : fuelx = fuel := by omega
        subst hf
        split
        · rename_i s1 hev
          have hinv := evalStep_stay_inv spec s s1 _ hev
          rcases hinv.2.2.2.2 with ⟨hidx, habort⟩ | ⟨habort, hfix⟩
          · have hab1 : s1.status.abort = false := habort.trans hab
            constructor
            · intro habt
              rw [habt] at hab1
              exact Bool.noConfusion hab1
            · intro _ fuel2
              have hlt1 : s1.status.currentStepIndex < spec.steps.length := by
                rw [hidx]; exact Nat.not_le.mp hlt
              have hstep : spec.steps.get ⟨s1.status.currentStepIndex, hlt1⟩
                  = spec.steps.get
                      ⟨s.status.currentStepIndex, Nat.not_le.mp hlt⟩ := by
                congr 1
                exact Fin.ext hidx
              have hfixev : evalStep spec s1
                  (spec.steps.get ⟨s1.status.currentStepIndex, hlt1⟩)
                  = EvalResult.stay s1 := by
                rw [hstep]
                exact evalStep_stay_fix spec s s1 _ hev hab1
              exact runSteps_stay_state spec fuel2 s1 hlt1 hfixev
          · constructor
            · intro _; exact hfix
            · intro habf
              rw [habort] at habf
              exact Bool.noConfusion habf
        · rename_i s1 hev
          have hinv := evalStep_advance_inv spec s s1 _ hev
          have hab1 : s1.status.abort = false := hinv.2.2.2.2.1.trans hab
          have hidx : s1.status.currentStepIndex = s.status.currentStepIndex :=
            hinv.2.2.2.1
          exact ih _ hab1
            (by show spec.steps.length < _ + (s1.status.currentStepIndex + 1)
                omega)

/-- The abort branch leaves the recorded weight untouched unless the
backend already reports weight 0 applied. -/
lemma applyAbort_weight (s : RState) :
    (applyAbort s).status.currentWeight = s.status.currentWeight ∨
    (applyAbort s).status.currentWeight = s.cluster.observedWeight := by
  by_cases h : s.cluster.observedWeight = 0
  · right; simp [applyAbort, h]
  · left; simp [applyAbort, h]

/-- The promotion branch leaves the recorded weight untouched unless
the backend already reports weight 100 applied. -/
lemma applyFinish_weight (spec : RolloutSpec) (s : RState) :
    (applyFinish spec s).status.currentWeight = s.status.currentWeight ∨
    (applyFinish spec s).status.currentWeight = s.cluster.observedWeight := by
  by_cases h : s.cluster.observedWeight = 100
  · right; simp [applyFinish, h]
  · left; simp [applyFinish, h]

/-- Through the step loop the recorded weight is either untouched or
set to the weight the backend reports applied. -/
lemma runSteps_weight (spec : RolloutSpec) (fuel : Nat) :
    ∀ s : RState,
    (runSteps spec fuel s).state.status.currentWeight
        = s.status.currentWeight ∨
    (runSteps spec fuel s).state.status.currentWeight
        = s.cluster.observedWeight := by
  induction fuel with
  | zero =>
    intro s
    rw [runSteps]
    split
    · exact applyFinish_weight spec s
    · left; rfl
  | succ fuel ih =>
    intro s
    rw [runSteps]
    split
    · exact applyFinish_weight spec s
    · split
      · rename_i heq; exact absurd heq (by omega)
      · rename_i fuelx heq
        have hf : fuelx = fuel := by omega
        subst hf
        split
        · rename_i s1 hev
          have hinv := evalStep_stay_inv spec s s1 _ hev
          exact hinv.2.2.2.1
        · rename_i s1 hev
          have hinv := evalStep_advance_inv spec s s1 _ hev
          rcases ih { s1 with status := { s1.status with
              currentStepIndex := s1.status.currentStepIndex + 1 } } with h1 | h1
          · rcases hinv.2.2.2.2.2.1 with h2 | h2
            · left; exact h1.trans h2
            · right; exact h1.trans h2
          · right; exact h1.trans hinv.2.1

/-- The whole Reconciler, over every strategy, records a weight only
when it is untouched or equals the applied weight. -/
lemma reconcile_weight (spec : RolloutSpec) (s : RState) :
    (reconcile spec s).state.status.currentWeight
        = s.status.currentWeight ∨
    (reconcile spec s).state.status.currentWeight
        = s.cluster.observedWeight := by
  rw [reconcile]
  split
  · left; rfl
  · rw [reconcileBlueGreen]
    by_cases hifs : spec.podHash = s.status.currentPodHash
    · simp only [if_pos hifs]
      split
      · exact applyAbort_weight s
      · split
        · exact applyFinish_weight spec s
        · split
          · exact applyFinish_weight spec s
          · left; rfl
    · simp only [if_neg hifs]
      split
      · exact applyAbort_weight (resetForTemplate spec s)
      · split
        · exact applyFinish_weight spec (resetForTemplate spec s)
        · split
          · exact applyFinish_weight spec (resetForTemplate spec s)
          · left; rfl
  · rw [reconcileCanary]
    by_cases hifs : spec.podHash = s.status.currentPodHash
    · simp only [if_pos hifs]
      split
      · exact applyAbort_weight s
      · exact runSteps_weight spec _ s
    · simp only [if_neg hifs]
      split
      · exact applyAbort_weight (resetForTemplate spec s)
      · exact runSteps_weight spec _ (resetForTemplate spec s)

/-- When the pod hash already matches, the canary branch skips the
template reset. -/
lemma reconcileCanary_unfold (spec : RolloutSpec) (x : RState)
    (hph : spec.podHash = x.status.currentPodHash) :
    reconcileCanary spec x =
      if x.status.abort then
        { state := applyAbort x, requeue := false, error := none }
      else runSteps spec (spec.steps.length + 1) x := by
  rw [reconcileCanary]
  simp only [if_pos hph]

/-- A template mismatch makes the canary branch behave exactly as if
called on the reset state. -/
lemma reconcileCanary_reset (spec : RolloutSpec) (s : RState)
    (hifs : ¬(spec.podHash = s.status.currentPodHash)) :
    reconcileCanary spec s = reconcileCanary spec (resetForTemplate spec s) := by
  conv_rhs => rw [reconcileCanary_unfold spec (resetForTemplate spec s) rfl]
  rw [reconcileCanary]
  simp only [if_neg hifs]

/-- The canary branch always leaves the targeted pod hash equal to the
spec's pod hash. -/
lemma reconcileCanary_podHash (spec : RolloutSpec) (s : RState) :
    (reconcileCanary spec s).state.status.currentPodHash = spec.podHash := by
  rw [reconcileCanary]
  by_cases hifs : spec.podHash = s.status.currentPodHash
  · simp only [if_pos hifs]
    split
    · exact hifs.symm
    · exact ((runSteps_preserves spec _ s).1).trans hifs.symm
  · simp only [if_neg hifs]
    split
    · rfl
    · exact (runSteps_preserves spec _ (resetForTemplate spec s)).1

/-- The canary branch on a hash-matching state lands in a fixpoint:
an aborted result absorbs `applyAbort`, a non-aborted result absorbs
any further run of the step loop. -/
lemma reconcileCanary_idem_aux (spec : RolloutSpec) (x : RState)
    (hph : spec.podHash = x.status.currentPodHash) :
    (reconcileCanary spec (reconcileCanary spec x).state).state
      = (reconcileCanary spec x).state := by
  by_cases habx : x.status.abort = true
  · have ht : (reconcileCanary spec x).state = applyAbort x := by
      rw [reconcileCanary_unfold spec x hph, if_pos habx]
    rw [ht]
    have hph2 : spec.podHash = (applyAbort x).status.currentPodHash := hph
    rw [reconcileCanary_unfold spec (applyAbort x) hph2,
      if_pos (show (applyAbort x).status.abort = true from rfl)]
    exact applyAbort_idem x
  · have hab0 : x.status.abort = false := by simpa using habx
    have ht : reconcileCanary spec x
        = runSteps spec (spec.steps.length + 1) x := by
      rw [reconcileCanary_unfold spec x hph, if_neg habx]
    rw [ht]
    have hfix := runSteps_fix spec (spec.steps.length + 1) x hab0 (by omega)
    have hph3 : spec.podHash =
        (runSteps spec (spec.steps.length + 1) x).state.status.currentPodHash :=
      hph.trans ((runSteps_preserves spec _ x).1).symm
    by_cases habt : (runSteps spec (spec.steps.length + 1)
        x).state.status.abort = true
    · rw [reconcileCanary_unfold spec _ hph3, if_pos habt]
      exact hfix.1 habt
    · rw [reconcileCanary_unfold spec _ hph3, if_neg habt]
      exact hfix.2 (by simpa using habt) _

/-- A second canary reconcile on the state the first one produced
changes nothing. -/
lemma reconcileCanary_idem (spec : RolloutSpec) (s : RState) :
    (reconcileCanary spec (reconcileCanary spec s).state).state
      = (reconcileCanary spec s).state := by
  by_cases hifs : spec.podHash = s.status.currentPodHash
  · exact reconcileCanary_idem_aux spec s hifs
  · rw [reconcileCanary_reset spec s hifs]
    exact reconcileCanary_idem_aux spec (resetForTemplate spec s) rfl

/-- When the pod hash already matches, the blue-green branch skips the
template reset. -/
lemma reconcileBlueGreen_unfold (spec : RolloutSpec) (x : RState)
    (hph : spec.podHash = x.status.currentPodHash) :
    reconcileBlueGreen spec x =
      if x.status.abort then
        { state := applyAbort x, requeue := false, error := none }
      else if x.status.stableHash = spec.podHash then
        { state := applyFinish spec x, requeue := false, error := none }
      else if x.cluster.promoteSignal then
        { state := applyFinish spec x, requeue := false, error := none }
      else
        { state := previewState spec x, requeue := true, error := none } := by
  rw [reconcileBlueGreen]
  simp only [if_pos hph]

/-- A template mismatch makes the blue-green branch behave exactly as
if called on the reset state. -/
lemma reconcileBlueGreen_reset (spec : RolloutSpec) (s : RState)
    (hifs : ¬(spec.podHash = s.status.currentPodHash)) :
    reconcileBlueGreen spec s
      = reconcileBlueGreen spec (resetForTemplate spec s) := by
  conv_rhs => rw [reconcileBlueGreen_unfold spec (resetForTemplate spec s) rfl]
  rw [reconcileBlueGreen]
  simp only [if_neg hifs]

/-- The blue-green branch on a hash-matching state lands in a
fixpoint. -/
lemma reconcileBlueGreen_idem_aux (spec : RolloutSpec) (x : RState)
    (hph : spec.podHash = x.status.currentPodHash) :
    (reconcileBlueGreen spec (reconcileBlueGreen spec x).state).state
      = (reconcileBlueGreen spec x).state := by
  by_cases habx : x.status.abort = true
  · have ht : (reconcileBlueGreen spec x).state = applyAbort x := by
      rw [reconcileBlueGreen_unfold spec x hph, if_pos habx]
    rw [ht]
    rw [reconcileBlueGreen_unfold spec (applyAbort x)
        (show spec.podHash = (applyAbort x).status.currentPodHash from hph),
      if_pos (show (applyAbort x).status.abort = true from rfl)]
    exact applyAbort_idem x
  · have hab0 : x.status.abort = false := by simpa using habx
    by_cases hst : x.status.stableHash = spec.podHash
    · have ht : (reconcileBlueGreen spec x).state = applyFinish spec x := by
        rw [reconcileBlueGreen_unfold spec x hph, if_neg habx, if_pos hst]
      rw [ht]
      rw [reconcileBlueGreen_unfold spec (applyFinish spec x)
          (show spec.podHash
            = (applyFinish spec x).status.currentPodHash from hph),
        if_neg (show ¬((applyFinish spec x).status.abort = true) from habx),
        if_pos (show (applyFinish spec x).status.stableHash
          = spec.podHash from rfl)]
      exact applyFinish_idem spec x
    · by_cases hpr : x.cluster.promoteSignal = true
      · have ht : (reconcileBlueGreen spec x).state = applyFinish spec x := by
          rw [reconcileBlueGreen_unfold spec x hph, if_neg habx, if_neg hst,
            if_pos hpr]
        rw [ht]
        rw [reconcileBlueGreen_unfold spec (applyFinish spec x)
            (show spec.podHash
              = (applyFinish spec x).status.currentPodHash from hph),
          if_neg (show ¬((applyFinish spec x).status.abort = true) from habx),
          if_pos (show (applyFinish spec x).status.stableHash
            = spec.podHash from rfl)]
        exact applyFinish_idem spec x
      · have ht : (reconcileBlueGreen spec x).state = previewState spec x := by
          rw [reconcileBlueGreen_unfold spec x hph, if_neg habx, if_neg hst,
            if_neg hpr]
        rw [ht]
        rw [reconcileBlueGreen_unfold spec (previewState spec x)
            (show spec.podHash
              = (previewState spec x).status.currentPodHash from hph),
          if_neg (show ¬((previewState spec x).status.abort = true) from habx),
          if_neg (show ¬((previewState spec x).status.stableHash
            = spec.podHash) from hst),
          if_neg (show ¬((previewState spec x).cluster.promoteSignal
            = true) from hpr)]
        exact (show previewState spec (previewState spec x)
          = previewState spec x from rfl)

/-- A second blue-green reconcile on the state the first one produced
changes nothing. -/
lemma reconcileBlueGreen_idem (spec : RolloutSpec) (s : RState) :
    (reconcileBlueGreen spec (reconcileBlueGreen spec s).state).state
      = (reconcileBlueGreen spec s).state := by
  by_cases hifs : spec.podHash = s.status.currentPodHash
  · exact reconcileBlueGreen_idem_aux spec s hifs
  · rw [reconcileBlueGreen_reset spec s hifs]
    exact reconcileBlueGreen_idem_aux spec (resetForTemplate spec s) rfl

/-- Claim C2: a rollout spec whose strategy kind is unknown is rejected
with a ValidationError before any status mutation: the state (status
and cluster) is returned exactly as it was, the error is the
ValidationError, and the StrategyEngine is never reached. -/
theorem unknown_strategy_rejected (spec : RolloutSpec) (s : RState)
    (name : String) (h : spec.strategy = StrategyKind.unknown name) :
    (reconcile spec s).state = s ∧
    (reconcile spec s).error = some (RolloutError.validationError name) := by
  rw [reconcile, h]
  exact ⟨rfl, rfl⟩

/-- Claim C2 witness: the `invalid-rollout` manifest (replicas 10,
strategy `unknown-strategy` with a setWeight step) is rejected and the
status is untouched. -/
theorem unknown_strategy_rejected_witness :
    ({ replicas := 10, steps := [StepKind.setWeight 10], podHash := 1
       strategy := StrategyKind.unknown "unknown-strategy" } :
        RolloutSpec).strategy = StrategyKind.unknown "unknown-strategy" ∧
    (reconcile
      { replicas := 10, steps := [StepKind.setWeight 10], podHash := 1
        strategy := StrategyKind.unknown "unknown-strategy" }
      sampleState).state = sampleState :=
  ⟨rfl,
   (unknown_strategy_rejected
      { replicas := 10, steps := [StepKind.setWeight 10], podHash := 1
        strategy := StrategyKind.unknown "unknown-strategy" }
      sampleState "unknown-strategy" rfl).1⟩

/-- Claim C3: `reconcileReplicaCounts` is the pure function
`canaryCount = ceil(totalReplicas * desiredWeight / 100)` with
`stableCount = totalReplicas - canaryCount`; at totalReplicas 5 and
desiredWeight 20 it yields canaryCount 1 and stableCount 4. -/
theorem reconcileReplicaCounts_is_ceil (total w : Nat) (h : w ≤ 100) :
    (reconcileReplicaCounts total w).2 =
      ⌈((total * w : Nat) : ℚ) / 100⌉₊ ∧
    (reconcileReplicaCounts total w).1 =
      total - (reconcileReplicaCounts total w).2 ∧
    reconcileReplicaCounts 5 20 = (4, 1) := by
  refine ⟨?_, rfl, rfl⟩
  show (total * w + 99) / 100 = ⌈((total * w : Nat) : ℚ) / 100⌉₊
  have hdm := Nat.div_add_mod (total * w + 99) 100
  have hm : (total * w + 99) % 100 < 100 := Nat.mod_lt _ (by norm_num)
  apply le_antisymm
  · rcases Nat.eq_zero_or_pos ((total * w + 99) / 100) with h0 | hpos
    · simp [h0]
    · have hnat : ((total * w + 99) / 100 - 1) * 100 < total * w := by omega
      have h1 : (total * w + 99) / 100 - 1 <
          ⌈((total * w : Nat) : ℚ) / 100⌉₊ := by
        rw [Nat.lt_ceil, lt_div_iff₀ (by norm_num : (0 : ℚ) < 100)]
        exact_mod_cast hnat
      omega
  · rw [Nat.ceil_le, div_le_iff₀ (by norm_num : (0 : ℚ) < 100)]
    have hnat : total * w ≤ ((total * w + 99) / 100) * 100 := by omega
    exact_mod_cast hnat

/-- Claim C3 witness: the ceiling identity and the (5, 20) instance. -/
theorem reconcileReplicaCounts_is_ceil_witness :
    (20 : Nat) ≤ 100 ∧ reconcileReplicaCounts 5 20 = (4, 1) :=
  ⟨by decide, (reconcileReplicaCounts_is_ceil 5 20 (by decide)).2.2⟩

/-- Claim C4: once a step has converged, stable plus canary replicas
equal `spec.replicas`: the pure counts always sum to the total for a
percentage weight, and every state a SetWeight step evaluation leaves
behind carries replica-count targets summing to `spec.replicas` (at
convergence the observed counts equal these targets). -/
theorem converged_replica_sum (total w : Nat) (h : w ≤ 100) :
    (reconcileReplicaCounts total w).1 + (reconcileReplicaCounts total w).2
      = total ∧
    (∀ (spec : RolloutSpec) (s : RState) (wstep : Nat),
      wstep ≤ 100 →
      (evalStep spec s (StepKind.setWeight wstep)).state.cluster.requestedStable
        + (evalStep spec s (StepKind.setWeight wstep)).state.cluster.requestedCanary
        = spec.replicas) ∧
    (∀ (spec : RolloutSpec) (s : RState) (wstep : Nat),
      wstep ≤ 100 →
      converged spec s.cluster wstep = true →
      s.cluster.observedStable + s.cluster.observedCanary = spec.replicas) := by
  refine ⟨counts_sum total w h, ?_, ?_⟩
  · intro spec s wstep hw
    rw [evalStep]
    split
    · exact counts_sum spec.replicas wstep hw
    · exact counts_sum spec.replicas wstep hw
  · intro spec s wstep hw hc
    rw [converged] at hc
    simp only [decide_eq_true_eq, Bool.and_eq_true] at hc
    rw [hc.2.1, hc.2.2]
    exact counts_sum spec.replicas wstep hw

/-- Claim C4 witness: the sum identity at 5 replicas, weight 20. -/
theorem converged_replica_sum_witness :
    (20 : Nat) ≤ 100 ∧
    (reconcileReplicaCounts 5 20).1 + (reconcileReplicaCounts 5 20).2 = 5 :=
  ⟨by decide, (converged_replica_sum 5 20 (by decide)).1⟩

/-- A canary reconcile with matching template hash and no abort is the
step loop. -/
lemma reconcile_canary_red (spec : RolloutSpec) (s : RState)
    (hstrat : spec.strategy = StrategyKind.canary)
    (hhash : spec.podHash = s.status.currentPodHash)
    (hab : s.status.abort = false) :
    reconcile spec s = runSteps spec (spec.steps.length + 1) s := by
  rw [reconcile, hstrat]
  rw [reconcileCanary_unfold spec s hhash]
  rw [if_neg (show ¬(s.status.abort = true) by rw [hab]; exact Bool.false_ne_true)]

/-- Claim C5: under a canary strategy with unchanged pod-template hash
and no abort in flight, `currentStepIndex` never decreases across a
reconcile unless the abort branch fires (which resets it to 0), and
the index never moves past an AnalysisStep whose gate did not report
Successful. -/
theorem currentStepIndex_monotone (spec : RolloutSpec) (s : RState)
    (hstrat : spec.strategy = StrategyKind.canary)
    (hhash : spec.podHash = s.status.currentPodHash)
    (hab : s.status.abort = false) :
    ((reconcile spec s).state.status.abort = false →
      s.status.currentStepIndex
        ≤ (reconcile spec s).state.status.currentStepIndex) ∧
    (∀ j, s.status.currentStepIndex ≤ j →
      j < (reconcile spec s).state.status.currentStepIndex →
      ∀ t, spec.steps[j]? = some (StepKind.analysis t) →
      s.cluster.analysisPhase j = AnalysisPhase.successful) := by
  rw [reconcile_canary_red spec s hstrat hhash hab]
  exact runSteps_mono spec _ s hab

/-- Claim C5 witness: the monotonicity instance on the reference
manifest spec (replicas 5, steps setWeight 20 then pause 10) from a
fresh state. -/
theorem currentStepIndex_monotone_witness :
    ({ replicas := 5
       steps := [StepKind.setWeight 20, StepKind.pause (some 10)]
       podHash := 0, strategy := StrategyKind.canary } :
        RolloutSpec).strategy = StrategyKind.canary ∧
    (0 : Nat) = sampleState.status.currentPodHash ∧
    sampleState.status.abort = false ∧
    ((reconcile
        { replicas := 5
          steps := [StepKind.setWeight 20, StepKind.pause (some 10)]
          podHash := 0, strategy := StrategyKind.canary }
        sampleState).state.status.abort = false →
      sampleState.status.currentStepIndex
        ≤ (reconcile
            { replicas := 5
              steps := [StepKind.setWeight 20, StepKind.pause (some 10)]
              podHash := 0, strategy := StrategyKind.canary }
            sampleState).state.status.currentStepIndex) :=
  ⟨rfl, rfl, rfl,
   (currentStepIndex_monotone
      { replicas := 5
        steps := [StepKind.setWeight 20, StepKind.pause (some 10)]
        podHash := 0, strategy := StrategyKind.canary }
      sampleState rfl rfl rfl).1⟩

/-- Claim C6: the recorded traffic weight is never optimistically
advanced.  When the current SetWeight step has not converged (the
backend call failed or propagation is pending), the Reconciler
requeues leaving the recorded weight and the step index untouched; and
over every strategy and state, a reconcile only ever leaves the
recorded weight untouched or sets it to the weight the backend
reports applied. -/
theorem status_weight_applied (spec : RolloutSpec) (s : RState) (w : Nat)
    (hstrat : spec.strategy = StrategyKind.canary)
    (hhash : spec.podHash = s.status.currentPodHash)
    (hab : s.status.abort = false)
    (hstep : spec.steps[s.status.currentStepIndex]?
      = some (StepKind.setWeight w))
    (hconv : converged spec s.cluster w = false) :
    (reconcile spec s).state.status.currentWeight
        = s.status.currentWeight ∧
    (reconcile spec s).state.status.currentStepIndex
        = s.status.currentStepIndex ∧
    (reconcile spec s).requeue = true ∧
    (∀ (spec2 : RolloutSpec) (s2 : RState),
      (reconcile spec2 s2).state.status.currentWeight
          = s2.status.currentWeight ∨
      (reconcile spec2 s2).state.status.currentWeight
          = s2.cluster.observedWeight) := by
  rcases List.getElem?_eq_some_iff.mp hstep with ⟨hjlt, hgett⟩
  have hgetw : spec.steps.get ⟨s.status.currentStepIndex, hjlt⟩
      = StepKind.setWeight w := by
    rw [List.get_eq_getElem]
    exact hgett
  rw [reconcile_canary_red spec s hstrat hhash hab]
  rw [runSteps]
  rw [dif_neg (Nat.not_le.mpr hjlt)]
  split
  · rename_i heq; exact absurd heq (by omega)
  · rename_i fuelx heq
    split
    · rename_i s1 hev
      have hev2 : evalStep spec s (StepKind.setWeight w)
          = EvalResult.stay s1 := by
        rw [← hgetw]
        exact hev
      simp only [evalStep] at hev2
      split at hev2
      · rename_i hc
        have hc2 : converged spec s.cluster w = true := hc
        rw [hconv] at hc2
        exact Bool.noConfusion hc2
      · injection hev2 with h1
        subst h1
        exact ⟨rfl, rfl, rfl, fun spec2 s2 => reconcile_weight spec2 s2⟩
    · rename_i s1 hev
      have hev2 : evalStep spec s (StepKind.setWeight w)
          = EvalResult.advance s1 := by
        rw [← hgetw]
        exact hev
      simp only [evalStep] at hev2
      split at hev2
      · rename_i hc
        have hc2 : converged spec s.cluster w = true := hc
        rw [hconv] at hc2
        exact Bool.noConfusion hc2
      · exact EvalResult.noConfusion hev2

/-- Claim C6 witness: on the reference manifest spec from a fresh
state whose backend still reports weight 0, the reconcile requeues
with the recorded weight unchanged. -/
theorem status_weight_applied_witness :
    ({ replicas := 5
       steps := [StepKind.setWeight 20, StepKind.pause (some 10)]
       podHash := 0, strategy := StrategyKind.canary } :
        RolloutSpec).steps[sampleState.status.currentStepIndex]?
      = some (StepKind.setWeight 20) ∧
    converged
      { replicas := 5
        steps := [StepKind.setWeight 20, StepKind.pause (some 10)]
        podHash := 0, strategy := StrategyKind.canary }
      sampleState.cluster 20 = false ∧
    (reconcile
        { replicas := 5
          steps := [StepKind.setWeight 20, StepKind.pause (some 10)]
          podHash := 0, strategy := StrategyKind.canary }
        sampleState).state.status.currentWeight
      = sampleState.status.currentWeight :=
  ⟨rfl, rfl,
   (status_weight_applied
      { replicas := 5
        steps := [StepKind.setWeight 20, StepKind.pause (some 10)]
        podHash := 0, strategy := StrategyKind.canary }
      sampleState 20 rfl rfl rfl rfl rfl).1⟩

/-- Claim C7: reconciliation is idempotent - running the Reconciler a
second time on the unchanged (spec, status, cluster-state) triple
produced by the first run yields no further mutation of the status or
of the managed resources. -/
theorem reconcile_idempotent (spec : RolloutSpec) (s : RState) :
    (reconcile spec (reconcile spec s).state).state
      = (reconcile spec s).state := by
  rw [reconcile]
  split
  · rename_i name heq
    rw [reconcile, heq]
  · rename_i heq
    rw [reconcile, heq]
    exact reconcileBlueGreen_idem spec s
  · rename_i heq
    rw [reconcile, heq]
    exact reconcileCanary_idem spec s

end Engine
